import Mathlib

/-!
Shallow embedding of the WhaleRadar engine (src/src/main.rs).

Machine floats (`f64`) are modelled as `ℚ`; `i64`/`u64` as `Int`/`Nat`.
Rust `Vec` becomes `List`, `HashMap`/`DashMap` become association lists or
lookup functions.  Every definition mirrors the Rust source structure for
structure; section comments name the Rust item being embedded.
-/

namespace WhaleRadar

/-- Rust struct `TradeState` (src/src/main.rs, Hoofdstuk 3.1). -/
structure TradeState where
  buy_volume : ℚ := 0
  sell_volume : ℚ := 0
  trade_count : Nat := 0
  ewma_trade_size : Option ℚ := none
  ewma_notional : Option ℚ := none
  ewma_volume : Option ℚ := none
  last_whale : Bool := false
  last_whale_side : Option String := none
  last_whale_volume : Option ℚ := none
  last_whale_notional : Option ℚ := none
  last_early : Option String := none
  last_alpha : Option String := none
  last_score : ℚ := 0
  last_rating : Option String := none
  last_flow_pct : ℚ := 0
  last_dir : String := ""
  recent_buys : List (ℚ × ℚ) := []
  recent_sells : List (ℚ × ℚ) := []
  recent_buys_5m : List (ℚ × ℚ) := []
  recent_sells_5m : List (ℚ × ℚ) := []
  last_flow_pct_5m : ℚ := 0
  last_dir_5m : String := ""
  recent_prices : List (ℚ × ℚ) := []
  last_pump_score : ℚ := 0
  last_pump_signal : Option String := none
  whale_pred_score : ℚ := 0
  whale_pred_label : Option String := none
  last_update_ts : Int := 0
  news_sentiment : ℚ := 0
  recent_anom : Bool := false
  deriving Repr, DecidableEq

/-- Rust struct `CandleState` (src/src/main.rs, Hoofdstuk 3.2). -/
structure CandleState where
  open_ : Option ℚ := none
  high : Option ℚ := none
  low : Option ℚ := none
  close : Option ℚ := none
  pct_change : Option ℚ := none
  first_ts : Option Int := none
  last_ts : Option Int := none
  last_update_ts : Int := 0
  deriving Repr, DecidableEq

/-- Rust struct `TickerState` (src/src/main.rs, Hoofdstuk 3.3). -/
structure TickerState where
  last_price : Option ℚ := none
  last_vol24h : Option ℚ := none
  ewma_vol24h : Option ℚ := none
  ewma_abs_return : Option ℚ := none
  last_anom_ts : Option Int := none
  last_anom_dir : Option String := none
  last_anom_strength : Option ℚ := none
  deriving Repr, DecidableEq

/-- Rust struct `OrderbookState` (src/src/main.rs). -/
structure OrderbookState where
  bids : List (ℚ × ℚ) := []
  asks : List (ℚ × ℚ) := []
  timestamp : Int := 0
  deriving Repr, DecidableEq

/-- Rust struct `SignalEvent` (src/src/main.rs, Hoofdstuk 4). -/
structure SignalEvent where
  ts : Int
  pair : String
  signal_type : String
  direction : String
  strength : ℚ
  flow_pct : ℚ
  pct : ℚ
  whale : Bool
  whale_side : String
  volume : ℚ
  notional : ℚ
  price : ℚ
  rating : String
  total_score : ℚ
  flow_score : ℚ
  price_score : ℚ
  whale_score : ℚ
  volume_score : ℚ
  anomaly_score : ℚ
  trend_score : ℚ
  evaluated : Bool
  ret_5m : Option ℚ
  eval_horizon_sec : Option Int
  deriving Repr, DecidableEq

/-- Rust struct `ScoreWeights` (src/src/main.rs, Hoofdstuk 4). -/
structure ScoreWeights where
  flow_w : ℚ
  price_w : ℚ
  whale_w : ℚ
  volume_w : ℚ
  anomaly_w : ℚ
  trend_w : ℚ
  deriving Repr, DecidableEq

/-- Rust `impl Default for ScoreWeights`. -/
def ScoreWeights.default : ScoreWeights :=
  { flow_w := 2.2
    price_w := 0.7
    whale_w := 1.4
    volume_w := 1.3
    anomaly_w := 1.5
    trend_w := 1.1 }

/-- Rust fn `normalize_asset` (src/src/main.rs, Hoofdstuk 8). -/
def normalize_asset (sym : String) : String :=
  if sym = "XBT" ∨ sym = "XXBT" then "BTC"
  else if sym = "XETH" then "ETH"
  else if sym = "XXRP" then "XRP"
  else if sym = "XDG" then "DOGE"
  else sym

/-- Rust fn `Engine::push_signal` (src/src/main.rs): append to the ring,
then drain the oldest entries whenever the length exceeds 400. -/
def push_signal (buf : List SignalEvent) (ev : SignalEvent) : List SignalEvent :=
  if (buf ++ [ev]).length > 400 then
    (buf ++ [ev]).drop ((buf ++ [ev]).length - 400)
  else buf ++ [ev]

/-- Rust struct `ManualTrade` (src/src/main.rs, Hoofdstuk 5). -/
structure ManualTrade where
  pair : String
  entry_price : ℚ
  size : ℚ
  open_ts : Int
  stop_loss : ℚ
  take_profit : ℚ
  fee_pct : ℚ
  manual_amount : ℚ
  deriving Repr, DecidableEq

/-- Rust struct `ManualTraderState`; the `trades` HashMap becomes an
association list keyed by pair. -/
structure ManualTraderState where
  initial_balance : ℚ
  balance : ℚ
  trades : List (String × ManualTrade)
  equity_curve : List (Int × ℚ)
  deriving Repr, DecidableEq

/-- Rust fn `ManualTraderState::add_trade`: refuse when a position for the
pair exists, otherwise insert one sized `manual_amount / price`. -/
def ManualTraderState.add_trade (st : ManualTraderState) (pair : String)
    (price sl_pct tp_pct fee_pct manual_amount : ℚ) (now : Int) :
    Bool × ManualTraderState :=
  if (st.trades.lookup pair).isSome then (false, st)
  else
    let size := manual_amount / price
    let sl := price * (1 - sl_pct / 100)
    let tp := price * (1 + tp_pct / 100)
    let trade : ManualTrade :=
      { pair := pair
        entry_price := price
        size := size
        open_ts := now
        stop_loss := sl
        take_profit := tp
        fee_pct := fee_pct
        manual_amount := manual_amount }
    (true, { st with trades := (pair, trade) :: st.trades })

/-- Rust fn `ManualTraderState::close_trade`: remove the position, credit
net PnL (gross minus fee on its absolute value) to the balance and append
the new balance to the equity curve, dropping the oldest point past 365. -/
def ManualTraderState.close_trade (st : ManualTraderState) (pair : String)
    (exit_price : ℚ) (now : Int) : Bool × ManualTraderState :=
  match st.trades.lookup pair with
  | some trade =>
    let pnl := (exit_price - trade.entry_price) * trade.size
    let fee_amount := |pnl| * (trade.fee_pct / 100)
    let net_pnl := pnl - fee_amount
    let balance' := st.balance + net_pnl
    let curve := st.equity_curve ++ [(now, balance')]
    let curve' := if curve.length > 365 then curve.eraseIdx 0 else curve
    (true,
      { st with
          balance := balance'
          trades := st.trades.filter (fun p => ¬ p.1 = pair)
          equity_curve := curve' })
  | none => (false, st)

/-- Candle section of `Engine::handle_trade` (src/src/main.rs lines 895-914):
initialize on first update, else extend high/low, move close, recompute
`pct_change`.  The Rust `unwrap()` on high/low is total on every state the
engine produces; `getD price` supplies the same value on those states. -/
def candle_update_trade (c : CandleState) (price : ℚ) (ts_int : Int) : CandleState :=
  let c0 := { c with last_update_ts := ts_int }
  match c.open_ with
  | none =>
    { c0 with
        open_ := some price
        high := some price
        low := some price
        close := some price
        first_ts := some ts_int
        last_ts := some ts_int
        pct_change := some 0 }
  | some o =>
    { c0 with
        high := some (max (c.high.getD price) price)
        low := some (min (c.low.getD price) price)
        close := some price
        last_ts := some ts_int
        pct_change := some ((price - o) / o * 100) }

/-- Candle section of `Engine::handle_ticker` (src/src/main.rs lines
1569-1592): first ticker initializes `open` from the 24h open and
high/low/close from the last price. -/
def candle_update_ticker (c : CandleState) (last openp : ℚ) (ts_int : Int) : CandleState :=
  let c0 := { c with last_update_ts := ts_int }
  match c.open_ with
  | none =>
    { c0 with
        open_ := some openp
        high := some last
        low := some last
        close := some last
        first_ts := some ts_int
        last_ts := some ts_int
        pct_change := some ((last - openp) / openp * 100) }
  | some o =>
    { c0 with
        close := some last
        high := some (max (c.high.getD last) last)
        low := some (min (c.low.getD last) last)
        last_ts := some ts_int
        pct_change := some ((last - o) / o * 100) }

/-- 60-second flow classifier of `Engine::handle_trade` (src/src/main.rs
lines 933-948), applied to the windowed buy and sell volume sums. -/
def flow_short (b s : ℚ) : ℚ × String :=
  let tot := b + s
  if tot > 0 then
    let f := b / tot
    if f > 0.75 then (f * 100, "BUY")
    else if f < 0.25 then ((1 - f) * 100, "SELL")
    else (50, "NEUTR")
  else (50, "NEUTR")

/-- 5-minute flow classifier of `Engine::handle_trade` (src/src/main.rs
lines 963-978); thresholds 0.70 and 0.30. -/
def flow_5m (b s : ℚ) : ℚ × String :=
  let tot := b + s
  if tot > 0 then
    let f := b / tot
    if f > 0.70 then (f * 100, "BUY")
    else if f < 0.30 then ((1 - f) * 100, "SELL")
    else (50, "NEUTR")
  else (50, "NEUTR")

/-- Result of one `Engine::handle_trade` call on a pair: the updated
`TradeState`, the updated `CandleState` and the `SignalEvent`s pushed to
the signal ring, in push order. -/
structure TradeResult where
  trade : TradeState
  candle : CandleState
  events : List SignalEvent

/-- All per-trade values computed by `Engine::handle_trade` before the
state write-back and signal emission, named as in the Rust source. -/
structure TradeCalc where
  ts_int : Int
  buy_volume : ℚ
  sell_volume : ℚ
  notional : ℚ
  s1 : ℚ
  n1 : ℚ
  v1 : ℚ
  is_whale : Bool
  candle : CandleState
  pct : ℚ
  recent_prices : List (ℚ × ℚ)
  recent_buys : List (ℚ × ℚ)
  recent_sells : List (ℚ × ℚ)
  recent_buys_5m : List (ℚ × ℚ)
  recent_sells_5m : List (ℚ × ℚ)
  flow_pct : ℚ
  dir : String
  flow_pct_5m : ℚ
  dir_5m : String
  anom_strength : ℚ
  has_recent_anom : Bool
  flow_score : ℚ
  price_score : ℚ
  whale_score : ℚ
  volume_score : ℚ
  anomaly_score : ℚ
  trend_score : ℚ
  vol_ratio : ℚ
  ret_5s : ℚ
  ret_30s : ℚ
  ret_120s : ℚ
  pump_score : ℚ
  pump_conf : ℚ
  pump_label : String
  total_score : ℚ
  rating : String
  whale_pred_score : ℚ
  whale_pred_label : String
  new_early : String
  new_alpha : String

set_option maxHeartbeats 1000000 in
/-- Computation phase of Rust fn `Engine::handle_trade` (src/src/main.rs
lines 831-1310): accumulators, EWMAs, whale detection, candle update, flow
windows, scores, pump detector, composite rating, whale prediction and the
early/alpha flags, in source order.  `handle_trade` below performs the
state write-back and signal emission from these values. -/
def trade_calc (t : TradeState) (c : CandleState) (tk : Option TickerState)
    (ob : Option OrderbookState) (weights : ScoreWeights)
    (price volume : ℚ) (side : String) (ts : ℚ) : TradeCalc :=
  let ts_int : Int := ⌊ts⌋
  let buy_volume' := if side = "b" then t.buy_volume + volume else t.buy_volume
  let sell_volume' := if side = "b" then t.sell_volume else t.sell_volume + volume
  let notional := price * volume
  let s1 := 0.9 * t.ewma_trade_size.getD volume + 0.1 * volume
  let n1 := 0.9 * t.ewma_notional.getD notional + 0.1 * notional
  let v1 := 0.9 * t.ewma_volume.getD volume + 0.1 * volume
  let min_notional : ℚ := 5000
  let is_whale : Bool := decide (notional > min_notional ∧ notional > n1 * 2.5)
  let c' := candle_update_trade c price ts_int
  let pct := c'.pct_change.getD 0
  let recent_prices' :=
    (t.recent_prices ++ [(ts, price)]).filter (fun x => x.1 ≥ ts - 300)
  let recent_buys' :=
    ((if side = "b" then t.recent_buys ++ [(ts, volume)] else t.recent_buys).filter
      (fun x => x.1 ≥ ts - 60))
  let recent_sells' :=
    ((if side = "b" then t.recent_sells else t.recent_sells ++ [(ts, volume)]).filter
      (fun x => x.1 ≥ ts - 60))
  let b := (recent_buys'.map (fun x => x.2)).sum
  let s := (recent_sells'.map (fun x => x.2)).sum
  let flow_pct := (flow_short b s).1
  let dir := (flow_short b s).2
  let recent_buys_5m' :=
    ((if side = "b" then t.recent_buys_5m ++ [(ts, volume)] else t.recent_buys_5m).filter
      (fun x => x.1 ≥ ts - 300))
  let recent_sells_5m' :=
    ((if side = "b" then t.recent_sells_5m else t.recent_sells_5m ++ [(ts, volume)]).filter
      (fun x => x.1 ≥ ts - 300))
  let b5 := (recent_buys_5m'.map (fun x => x.2)).sum
  let s5 := (recent_sells_5m'.map (fun x => x.2)).sum
  let flow_pct_5m := (flow_5m b5 s5).1
  let dir_5m := (flow_5m b5 s5).2
  let anom : ℚ × Bool :=
    match tk with
    | some tkr =>
      let strength := tkr.last_anom_strength.getD 0
      match tkr.last_anom_ts with
      | some anom_ts =>
        let age := ts_int - anom_ts
        if 0 ≤ age ∧ age ≤ 600 then (strength, true) else (0, false)
      | none => (0, false)
    | none => (0, false)
  let anom_strength := anom.1
  let has_recent_anom := anom.2
  let flow_score_short : ℚ :=
    if flow_pct > 75 then 3 else if flow_pct > 65 then 2 else if flow_pct > 55 then 1 else 0
  let flow_score_long : ℚ :=
    if dir_5m = "BUY" ∧ flow_pct_5m > 75 then 2
    else if dir_5m = "BUY" ∧ flow_pct_5m > 65 then 1
    else 0
  let flow_score0 := flow_score_short + 0.5 * flow_score_long
  let flow_score := if flow_score0 > 3 then 3 else flow_score0
  let price_score : ℚ := if pct > 2 then 3 else if pct > 1 then 2 else if pct > 0.3 then 1 else 0
  let whale_score0 : ℚ :=
    if is_whale then
      if notional > 50000 ∨ notional > n1 * 6 then 3
      else if notional > 20000 ∧ notional > n1 * 4 then 2
      else 1
    else 0
  let whale_score1 :=
    match ob with
    | some o =>
      let age := ts_int - o.timestamp
      if 0 ≤ age ∧ age ≤ 10 then
        let bid_volume := ((o.bids.take 10).map (fun x => x.2)).sum
        let ask_volume := ((o.asks.take 10).map (fun x => x.2)).sum
        let total_volume := bid_volume + ask_volume
        if total_volume > 0 then
          let bid_ratio := bid_volume / total_volume
          let w1 :=
            if side = "b" ∧ bid_ratio > 0.65 then whale_score0 + 0.5
            else if side = "s" ∧ bid_ratio < 0.35 then whale_score0 + 0.5
            else whale_score0
          if bid_ratio > 0.75 ∧ side = "b" then w1 + 0.3
          else if bid_ratio < 0.25 ∧ side = "s" then w1 + 0.3
          else w1
        else whale_score0
      else whale_score0
    | none => whale_score0
  let whale_score := if whale_score1 > 4 then 4 else whale_score1
  let vol_ratio := if v1 > 0 then volume / v1 else 1
  let volume_score : ℚ :=
    if vol_ratio > 2.5 then 3 else if vol_ratio > 1.5 then 2 else if vol_ratio > 1.2 then 1 else 0
  let anomaly_score : ℚ :=
    if has_recent_anom then
      if anom_strength > 80 then 3 else if anom_strength > 40 then 2
      else if anom_strength > 0 then 1 else 0
    else 0
  let trend_score : ℚ :=
    if is_whale = true ∧ side = "b" ∧ pct > 0 ∧ flow_pct > 60 then 1 else 0
  let rets := recent_prices'.foldl
    (fun (r : ℚ × ℚ × ℚ) xp =>
      let age := ts - xp.1
      let p_old := xp.2
      if p_old > 0 ∧ price > 0 then
        let r5 := if 5 ≤ age ∧ age ≤ 7 then (price - p_old) / p_old * 100 else r.1
        let r30 := if 30 ≤ age ∧ age ≤ 40 then (price - p_old) / p_old * 100 else r.2.1
        let r120 := if 110 ≤ age ∧ age ≤ 130 then (price - p_old) / p_old * 100 else r.2.2
        (r5, r30, r120)
      else r)
    ((0 : ℚ), (0 : ℚ), (0 : ℚ))
  let ret_5s := if rets.1 < 0 then 0 else rets.1
  let ret_30s := if rets.2.1 < 0 then 0 else rets.2.1
  let ret_120s := if rets.2.2 < 0 then 0 else rets.2.2
  let pump_score0 : ℚ :=
    (if ret_5s > 0.3 then (ret_5s - 0.3) * 2 else 0)
    + (if ret_30s > 1 then (ret_30s - 1) * 1 else 0)
    + (if ret_120s > 2 then (ret_120s - 2) * 0.5 else 0)
    + (if dir = "BUY" ∧ flow_pct > 65 then (flow_pct - 65) * 0.08 else 0)
    + (if dir_5m = "BUY" ∧ flow_pct_5m > 60 then (flow_pct_5m - 60) * 0.06 else 0)
    + (if vol_ratio > 1.5 then (vol_ratio - 1.5) * 1 else 0)
    + (if whale_score > 0 then whale_score * 0.7 else 0)
  let pump_score1 := if pump_score0 < 0 then 0 else pump_score0
  let pump_score := if pump_score1 > 10 then 10 else pump_score1
  let pump_conf : ℚ :=
    (if ret_5s > 0.5 then 0.4 else 0)
    + (if ret_30s > 1.5 then 0.3 else 0)
    + (if ret_120s > 3 then 0.2 else 0)
    + (if dir = "BUY" ∧ flow_pct > 70 then 0.3 else 0)
    + (if dir_5m = "BUY" ∧ flow_pct_5m > 65 then 0.2 else 0)
    + (if vol_ratio > 2 then 0.2 else 0)
    + (if whale_score ≥ 2 then 0.2 else 0)
  let pump_label :=
    if pump_score ≥ 7 ∧ pump_conf ≥ 0.9 ∧ dir = "BUY" then "MEGA_PUMP"
    else if pump_score ≥ 4 ∧ pump_conf ≥ 0.5 ∧ dir = "BUY" then "EARLY_PUMP"
    else "NONE"
  let total_score := weights.flow_w * flow_score + weights.price_w * price_score
    + weights.whale_w * whale_score + weights.volume_w * volume_score
    + weights.anomaly_w * anomaly_score + weights.trend_w * trend_score
  let rating :=
    if total_score ≥ 7.5 then "ALPHA BUY"
    else if total_score ≥ 5 then "STRONG BUY"
    else if total_score ≥ 3.5 then "BUY"
    else if total_score ≥ 2.2 then "EARLY BUY"
    else "NONE"
  let wp0 : ℚ := 0
  let wp1 :=
    if is_whale = false ∧ dir = "BUY" ∧ flow_pct > 60 then wp0 + (flow_pct - 60) * 0.08 else wp0
  let wp2 :=
    if is_whale = false ∧ dir_5m = "BUY" ∧ flow_pct_5m > 55 then wp1 + (flow_pct_5m - 55) * 0.06
    else wp1
  let wp3 := if is_whale = false ∧ volume < s1 * 0.8 then wp2 + 1 else wp2
  let abs_ret_5s := |ret_5s|
  let abs_ret_30s := |ret_30s|
  let wp4 := if abs_ret_5s < 0.5 ∧ abs_ret_30s < 1 ∧ pct ≥ -0.5 then wp3 + 1 else wp3
  let wp5 := if vol_ratio < 1.3 then wp4 + 0.5 else wp4
  let wp6 :=
    match ob with
    | some o =>
      let age := ts_int - o.timestamp
      if 0 ≤ age ∧ age ≤ 10 then
        let bid_volume := ((o.bids.take 10).map (fun x => x.2)).sum
        let ask_volume := ((o.asks.take 10).map (fun x => x.2)).sum
        let total_volume := bid_volume + ask_volume
        if total_volume > 0 then
          let bid_ratio := bid_volume / total_volume
          if bid_ratio > 0.65 then wp5 + (bid_ratio - 0.65) * 2 else wp5
        else wp5
      else wp5
    | none => wp5
  let wp7 : ℚ := if wp6 < 0 then 0 else wp6
  let whale_pred_score : ℚ := if wp7 > 10 then 10 else wp7
  let whale_pred_label :=
    if whale_pred_score ≥ 7 then "HIGH"
    else if whale_pred_score ≥ 4 then "MEDIUM"
    else if whale_pred_score ≥ 2 then "LOW"
    else "NONE"
  let early_alpha : String × String :=
    if dir = "BUY" then
      if rating = "EARLY BUY" ∨ rating = "BUY" then ("BUY", "NONE")
      else if rating = "STRONG BUY" ∨ rating = "ALPHA BUY" then ("BUY", "BUY")
      else ("NONE", "NONE")
    else ("NONE", "NONE")
  let new_early := early_alpha.1
  let new_alpha := early_alpha.2
  { ts_int := ts_int
    buy_volume := buy_volume'
    sell_volume := sell_volume'
    notional := notional
    s1 := s1
    n1 := n1
    v1 := v1
    is_whale := is_whale
    candle := c'
    pct := pct
    recent_prices := recent_prices'
    recent_buys := recent_buys'
    recent_sells := recent_sells'
    recent_buys_5m := recent_buys_5m'
    recent_sells_5m := recent_sells_5m'
    flow_pct := flow_pct
    dir := dir
    flow_pct_5m := flow_pct_5m
    dir_5m := dir_5m
    anom_strength := anom_strength
    has_recent_anom := has_recent_anom
    flow_score := flow_score
    price_score := price_score
    whale_score := whale_score
    volume_score := volume_score
    anomaly_score := anomaly_score
    trend_score := trend_score
    vol_ratio := vol_ratio
    ret_5s := ret_5s
    ret_30s := ret_30s
    ret_120s := ret_120s
    pump_score := pump_score
    pump_conf := pump_conf
    pump_label := pump_label
    total_score := total_score
    rating := rating
    whale_pred_score := whale_pred_score
    whale_pred_label := whale_pred_label
    new_early := new_early
    new_alpha := new_alpha }

/-- Rust fn `Engine::handle_trade` (src/src/main.rs lines 831-1526):
the computed values of `trade_calc` written back into the pair's
`TradeState`/`CandleState`, plus the edge-triggered `SignalEvent`s pushed
to the ring (lines 1312-1524), in push order.  The stars-history side
channel is not modelled. -/
def handle_trade (t : TradeState) (c : CandleState) (tk : Option TickerState)
    (ob : Option OrderbookState) (weights : ScoreWeights) (pair : String)
    (price volume : ℚ) (side : String) (ts : ℚ) : TradeResult :=
  let m := trade_calc t c tk ob weights price volume side ts
  let prev_whale := t.last_whale
  let prev_early := t.last_early.getD "NONE"
  let prev_alpha := t.last_alpha.getD "NONE"
  let prev_pump_sig := t.last_pump_signal.getD "NONE"
  let prev_pred_label := t.whale_pred_label.getD "NONE"
  let t' : TradeState :=
    { t with
        last_update_ts := m.ts_int
        buy_volume := m.buy_volume
        sell_volume := m.sell_volume
        trade_count := t.trade_count + 1
        ewma_trade_size := some m.s1
        ewma_notional := some m.n1
        ewma_volume := some m.v1
        last_whale := m.is_whale
        last_whale_side := if m.is_whale then some side else none
        last_whale_volume := if m.is_whale then some volume else none
        last_whale_notional := if m.is_whale then some m.notional else none
        recent_prices := m.recent_prices
        recent_buys := m.recent_buys
        recent_sells := m.recent_sells
        recent_buys_5m := m.recent_buys_5m
        recent_sells_5m := m.recent_sells_5m
        last_flow_pct := m.flow_pct
        last_dir := m.dir
        last_flow_pct_5m := m.flow_pct_5m
        last_dir_5m := m.dir_5m
        last_pump_score := m.pump_score
        last_pump_signal := some m.pump_label
        last_score := m.total_score
        last_rating := some m.rating
        whale_pred_score := m.whale_pred_score
        whale_pred_label := some m.whale_pred_label
        last_early := some m.new_early
        last_alpha := some m.new_alpha }
  let ev_wh_pred : SignalEvent :=
    { ts := m.ts_int, pair := pair, signal_type := "WH_PRED", direction := "BUY"
      strength := m.whale_pred_score, flow_pct := m.flow_pct, pct := m.pct
      whale := m.is_whale, whale_side := side, volume := volume
      notional := m.notional, price := price, rating := m.rating
      total_score := m.total_score, flow_score := m.flow_score
      price_score := m.price_score, whale_score := m.whale_score
      volume_score := m.volume_score, anomaly_score := m.anomaly_score
      trend_score := m.trend_score, evaluated := false
      ret_5m := none, eval_horizon_sec := none }
  let ev_pump : SignalEvent :=
    { ev_wh_pred with
        signal_type := m.pump_label, direction := "BUY", strength := m.pump_score }
  let ev_whale : SignalEvent :=
    { ev_wh_pred with
        signal_type := "WHALE"
        direction := if side = "b" then "BUY" else "SELL"
        strength := m.notional
        whale := true }
  let ev_early : SignalEvent :=
    { ev_wh_pred with
        signal_type := "EARLY", direction := m.new_early, strength := m.total_score }
  let ev_alpha : SignalEvent :=
    { ev_wh_pred with
        signal_type := "ALPHA", direction := m.new_alpha, strength := m.total_score }
  let events :=
    (if m.whale_pred_label = "HIGH" ∧ ¬ prev_pred_label = "HIGH" then [ev_wh_pred] else [])
    ++ (if ¬ m.pump_label = "NONE" ∧ ¬ m.pump_label = prev_pump_sig then [ev_pump] else [])
    ++ (if m.is_whale = true ∧ prev_whale = false then [ev_whale] else [])
    ++ (if ¬ m.new_early = "NONE" ∧ ¬ m.new_early = prev_early then [ev_early] else [])
    ++ (if ¬ m.new_alpha = "NONE" ∧ ¬ m.new_alpha = prev_alpha then [ev_alpha] else [])
  ⟨t', m.candle, events⟩

/-- Result of one `Engine::handle_ticker` call on a pair. -/
structure TickerResult where
  ticker : TickerState
  trade : TradeState
  candle : CandleState
  events : List SignalEvent

/-- Rust fn `Engine::handle_ticker` (src/src/main.rs lines 1532-1642):
EWMA updates, candle presence, anomaly score; on an anomaly it records the
anomaly on the `TickerState`, flags `recent_anom`, and pushes an `ANOM`
event that is born `evaluated = true` with `ret_5m` unset. -/
def handle_ticker (tk : TickerState) (t : TradeState) (c : CandleState) (pair : String)
    (last vol24h openp : ℚ) (ts_int : Int) : TickerResult :=
  let prev_price := tk.last_price.getD last
  let prev_vol := tk.last_vol24h.getD vol24h
  let day_ret := if openp > 0 then (last - openp) / openp * 100 else 0
  let jump := if prev_price > 0 then |(last - prev_price) / prev_price| * 100 else 0
  let vol_ratio := if prev_vol > 0 then vol24h / max prev_vol (1 / 1000000000) else 1
  let ew_vol1 := 0.9 * tk.ewma_vol24h.getD vol24h + 0.1 * vol24h
  let ew_ret1 := 0.9 * tk.ewma_abs_return.getD jump + 0.1 * jump
  let tk1 :=
    { tk with
        ewma_vol24h := some ew_vol1
        ewma_abs_return := some ew_ret1
        last_price := some last
        last_vol24h := some vol24h }
  let t1 := { t with last_update_ts := ts_int }
  let c' := candle_update_ticker c last openp ts_int
  let score := jump * 2 + |day_ret| * 0.5
    + (if vol_ratio > 1 then (vol_ratio - 1) * 20 else 0) + ew_ret1
  if score > 40 ∧ (jump > 0.3 ∨ vol_ratio > 2) then
    let direction := if last ≥ prev_price then "BUY" else "SELL"
    let tk2 :=
      { tk1 with
          last_anom_ts := some ts_int
          last_anom_dir := some direction
          last_anom_strength := some score }
    let t2 := { t1 with recent_anom := true }
    let ev : SignalEvent :=
      { ts := ts_int, pair := pair, signal_type := "ANOM", direction := direction
        strength := score, flow_pct := 0, pct := day_ret, whale := false
        whale_side := "-", volume := 0, notional := 0, price := last
        rating := "NONE", total_score := 0, flow_score := 0, price_score := 0
        whale_score := 0, volume_score := 0, anomaly_score := 0, trend_score := 0
        evaluated := true, ret_5m := none, eval_horizon_sec := none }
    ⟨tk2, t2, c', [ev]⟩
  else ⟨tk1, t1, c', []⟩

/-- The `adjust` closure of `run_self_evaluator` (src/src/main.rs lines
4141-4158): skip non-contributing scores, multiply by the step factor for
the outcome class, clamp into `[0.2, 5.0]`. -/
def eval_adjust (success_strong success_weak fail : Bool) (w factor_score : ℚ) : ℚ :=
  if factor_score ≤ 0 then w
  else
    let w1 :=
      if success_strong then w * 1.02
      else if success_weak then w * 1.01
      else if fail then w * 0.98
      else w
    let w2 := if w1 < 0.2 then 0.2 else w1
    if w2 > 5 then 5 else w2

/-- Body of the per-event loop of `run_self_evaluator` (src/src/main.rs
lines 4113-4172).  `candles` is the per-pair candle lookup; a missing close
falls back to the event's own price via `unwrap_or`. -/
def eval_event (candles : String → Option CandleState) (now_ts : Int)
    (weights : ScoreWeights) (ev : SignalEvent) : ScoreWeights × SignalEvent :=
  if ev.evaluated then (weights, ev)
  else if now_ts - ev.ts < 300 then (weights, ev)
  else if ev.rating = "NONE" then (weights, { ev with evaluated := true })
  else
    let current_price := ((candles ev.pair).bind (fun cn => cn.close)).getD ev.price
    let ret := (current_price - ev.price) / ev.price * 100
    let success_strong := decide (ret ≥ 2)
    let success_weak := decide (ret ≥ 0.5 ∧ ret < 2)
    let fail := decide (ret ≤ -0.5)
    let weights' : ScoreWeights :=
      { flow_w := eval_adjust success_strong success_weak fail weights.flow_w ev.flow_score
        price_w := eval_adjust success_strong success_weak fail weights.price_w ev.price_score
        whale_w := eval_adjust success_strong success_weak fail weights.whale_w ev.whale_score
        volume_w := eval_adjust success_strong success_weak fail weights.volume_w ev.volume_score
        anomaly_w := eval_adjust success_strong success_weak fail weights.anomaly_w ev.anomaly_score
        trend_w := eval_adjust success_strong success_weak fail weights.trend_w ev.trend_score }
    (weights',
      { ev with
          ret_5m := some ret
          eval_horizon_sec := some (now_ts - ev.ts)
          evaluated := true })

/-- One 60-second cycle of `run_self_evaluator`: the `iter_mut` loop over
the signal ring, threading the shared weights through each event. -/
def eval_signals (candles : String → Option CandleState) (now_ts : Int)
    (weights : ScoreWeights) : List SignalEvent → ScoreWeights × List SignalEvent
  | [] => (weights, [])
  | ev :: rest =>
    let p := eval_event candles now_ts weights ev
    let q := eval_signals candles now_ts p.1 rest
    (q.1, p.2 :: q.2)

/-- The grouping loop of `Engine::backtest_snapshot` (src/src/main.rs lines
1887-1895): an event contributes `((signal_type, direction), (ts, ret))`
exactly when it is evaluated and its `ret_5m` is set. -/
def backtest_events (sigs : List SignalEvent) : List ((String × String) × Int × ℚ) :=
  sigs.filterMap (fun ev =>
    if ev.evaluated = true then
      ev.ret_5m.map (fun r => ((ev.signal_type, ev.direction), ev.ts, r))
    else none)

/-! ## Shared helper lemmas -/

theorem mem_ite_singleton {α : Type} (p : Prop) [Decidable p] (x a : α) :
    (a ∈ if p then [x] else []) ↔ (p ∧ a = x) := by
  split_ifs with h <;> simp [h]

theorem push_signal_length (buf : List SignalEvent) (ev : SignalEvent)
    (h : buf.length ≤ 400) : (push_signal buf ev).length ≤ 400 := by
  unfold push_signal
  split_ifs with hl <;> simp only [List.length_drop, List.length_append] at * <;> omega

theorem push_signal_suffix (buf : List SignalEvent) (ev : SignalEvent) :
    ∃ dropped, dropped ++ push_signal buf ev = buf ++ [ev] := by
  simp only [push_signal]
  split_ifs with hl
  · exact ⟨(buf ++ [ev]).take ((buf ++ [ev]).length - 400), List.take_append_drop _ _⟩
  · exact ⟨[], rfl⟩

theorem foldl_push_signal_bounded (evs : List SignalEvent) :
    ∀ buf : List SignalEvent, buf.length ≤ 400 →
      (evs.foldl push_signal buf).length ≤ 400 ∧
        ∃ dropped, dropped ++ evs.foldl push_signal buf = buf ++ evs := by
  induction evs with
  | nil => intro buf h; exact ⟨h, [], by simp⟩
  | cons e rest ih =>
    intro buf h
    obtain ⟨hlen, d1, hd1⟩ := ih (push_signal buf e) (push_signal_length buf e h)
    obtain ⟨d0, hd0⟩ := push_signal_suffix buf e
    refine ⟨hlen, d0 ++ d1, ?_⟩
    calc (d0 ++ d1) ++ (rest.foldl push_signal (push_signal buf e))
        = d0 ++ (d1 ++ rest.foldl push_signal (push_signal buf e)) := by
          rw [List.append_assoc]
      _ = d0 ++ (push_signal buf e ++ rest) := by rw [hd1]
      _ = (d0 ++ push_signal buf e) ++ rest := by rw [List.append_assoc]
      _ = (buf ++ [e]) ++ rest := by rw [hd0]
      _ = buf ++ (e :: rest) := by simp

/-! ## C5: asset normalization -/

/-- C5 counterexample: `normalize_asset` is not injective — the two legacy
Bitcoin wire codes `XBT` and `XXBT` are distinct inputs that both map to
`BTC`, so the wire symbol cannot be recovered from the normalized one. -/
theorem normalize_asset_not_injective :
    normalize_asset "XBT" = "BTC" ∧ normalize_asset "XXBT" = "BTC" ∧
      ¬ ("XBT" : String) = "XXBT" := by
  refine ⟨rfl, by decide, by decide⟩

/-- C5 (amended): `normalize_asset` is a pure idempotent projection onto
canonical asset symbols — normalizing twice equals normalizing once — but
it is not injective (`XBT`, `XXBT` and `BTC` share the output `BTC`). -/
theorem normalize_asset_idempotent (s : String) :
    normalize_asset (normalize_asset s) = normalize_asset s := by
  unfold normalize_asset
  split_ifs <;> simp_all

/-! ## C8: signal ring capacity and drop-oldest policy -/

/-- C8: starting from the empty ring, any sequence of `push_signal` calls
leaves at most 400 events, and the surviving buffer is a suffix of the full
push history — overflow drops exactly the oldest events and preserves the
FIFO order of the survivors. -/
theorem signal_ring_bounded_fifo (evs : List SignalEvent) :
    (evs.foldl push_signal []).length ≤ 400 ∧
      ∃ dropped, dropped ++ evs.foldl push_signal [] = evs := by
  have h := foldl_push_signal_bounded evs [] (by simp)
  simpa using h

/-! ## C9: paper trader -/

theorem lookup_filter_ne_none (l : List (String × ManualTrade)) (pair : String) :
    (l.filter (fun p => ¬ p.1 = pair)).lookup pair = none := by
  induction l with
  | nil => rfl
  | cons hd tl ih =>
    by_cases h : hd.1 = pair
    · simpa [List.filter, h] using ih
    · have hb : (pair == hd.1) = false := beq_eq_false_iff_ne.mpr (Ne.symm h)
      simp [List.filter, h, List.lookup, hb, ih]
      exact fun a b _ hne h' => hne h'.symm

theorem eraseIdx_zero_suffix {α : Type} (l : List α) :
    ∃ dropped, dropped ++ l.eraseIdx 0 = l :=
  ⟨l.take 1, by rw [List.eraseIdx_zero, ← List.drop_one, List.take_append_drop]⟩

/-- C9: the paper trader refuses to open a second position on a pair that
already holds one, and closing a position at exit price `e` removes it and
yields exactly `balance + (PnL − fee)` with `PnL = (e − entry)·size` and
`fee = |PnL|·fee_pct/100`; the pair `(now, new balance)` is appended to the
equity curve, which stays within 365 points by dropping the oldest. -/
theorem manual_trader_open_close (st : ManualTraderState) (pair : String)
    (price sl_pct tp_pct fee_pct manual_amount exit_price : ℚ) (now : Int)
    (trade : ManualTrade) (hlook : st.trades.lookup pair = some trade) :
    st.add_trade pair price sl_pct tp_pct fee_pct manual_amount now = (false, st) ∧
    (st.close_trade pair exit_price now).1 = true ∧
    (st.close_trade pair exit_price now).2.balance =
      st.balance + ((exit_price - trade.entry_price) * trade.size
        - |(exit_price - trade.entry_price) * trade.size| * (trade.fee_pct / 100)) ∧
    (st.close_trade pair exit_price now).2.trades.lookup pair = none ∧
    (∃ dropped, dropped ++ (st.close_trade pair exit_price now).2.equity_curve
        = st.equity_curve ++ [(now, (st.close_trade pair exit_price now).2.balance)]) ∧
    (st.equity_curve.length ≤ 365 →
      (st.close_trade pair exit_price now).2.equity_curve.length ≤ 365) := by
  refine ⟨?_, ?_, ?_, ?_, ?_, ?_⟩
  · simp [ManualTraderState.add_trade, hlook]
  · simp [ManualTraderState.close_trade, hlook]
  · simp [ManualTraderState.close_trade, hlook]
  · simp only [ManualTraderState.close_trade, hlook]
    exact lookup_filter_ne_none _ _
  · simp only [ManualTraderState.close_trade, hlook]
    split_ifs with h
    · exact eraseIdx_zero_suffix _
    · exact ⟨[], rfl⟩
  · intro hle
    simp only [ManualTraderState.close_trade, hlook]
    split_ifs with h <;> simp_all [List.length_eraseIdx]

/-- Concrete paper-trader position used to exercise `manual_trader_open_close`. -/
def c9_trade : ManualTrade :=
  { pair := "BTC/EUR", entry_price := 100, size := 2, open_ts := 0,
    stop_loss := 90, take_profit := 110, fee_pct := 1, manual_amount := 200 }

/-- Concrete paper-trader state holding one open position. -/
def c9_state : ManualTraderState :=
  { initial_balance := 1000, balance := 1000,
    trades := [("BTC/EUR", c9_trade)], equity_curve := [(0, 1000)] }

/-- Witness for C9: with an open BTC/EUR position (entry 100, size 2,
fee 1%), a second open is refused and closing at 110 credits exactly
`1000 + (20 − 0.2) = 1019.8`. -/
theorem manual_trader_open_close_witness :
    c9_state.add_trade "BTC/EUR" 50 1 1 1 100 5 = (false, c9_state) ∧
    (c9_state.close_trade "BTC/EUR" 110 1).2.balance = 1019.8 := by
  obtain ⟨hadd, -, hbal, -, -, -⟩ :=
    manual_trader_open_close c9_state "BTC/EUR" 50 1 1 1 100 110 1 c9_trade rfl
  refine ⟨hadd, ?_⟩
  rw [hbal]
  norm_num [c9_state, c9_trade]

/-! ## C6: flow thresholds -/

/-- C6: with windowed buy sum `b` and sell sum `s` and `f = b/(b+s)`, the
60-second flow returns `(f·100, BUY)` for `f > 0.75`, `((1−f)·100, SELL)`
for `f < 0.25` and exactly `(50, NEUTR)` in between (boundaries included,
the comparisons being strict); both sums zero also give `(50, NEUTR)`; the
5-minute flow behaves the same at thresholds `0.70`/`0.30`. -/
theorem flow_window_thresholds (b s : ℚ) :
    (b + s > 0 →
      (b / (b + s) > 0.75 → flow_short b s = (b / (b + s) * 100, "BUY")) ∧
      (b / (b + s) < 0.25 → flow_short b s = ((1 - b / (b + s)) * 100, "SELL")) ∧
      (0.25 ≤ b / (b + s) ∧ b / (b + s) ≤ 0.75 → flow_short b s = (50, "NEUTR")) ∧
      (b / (b + s) > 0.70 → flow_5m b s = (b / (b + s) * 100, "BUY")) ∧
      (b / (b + s) < 0.30 → flow_5m b s = ((1 - b / (b + s)) * 100, "SELL")) ∧
      (0.30 ≤ b / (b + s) ∧ b / (b + s) ≤ 0.70 → flow_5m b s = (50, "NEUTR"))) ∧
    (b = 0 ∧ s = 0 → flow_short b s = (50, "NEUTR") ∧ flow_5m b s = (50, "NEUTR")) := by
  constructor
  · intro hpos
    refine ⟨?_, ?_, ?_, ?_, ?_, ?_⟩ <;> intro h <;>
      simp only [flow_short, flow_5m] <;> split_ifs <;>
      first
        | rfl
        | linarith
        | (exact absurd rfl (by linarith [h.1, h.2]))
        | linarith [h.1, h.2]
  · rintro ⟨hb, hs⟩
    subst hb; subst hs
    constructor <;> norm_num [flow_short, flow_5m]

/-- Witness for C6: concrete windowed sums hitting a strict-BUY bucket, the
exact 0.75 boundary (NEUTR), the empty window and a 5-minute BUY. -/
theorem flow_window_thresholds_witness :
    flow_short 9 1 = (90, "BUY") ∧ flow_short 3 1 = (50, "NEUTR") ∧
    flow_short 0 0 = (50, "NEUTR") ∧ flow_5m 71 29 = (71, "BUY") := by
  refine ⟨?_, ?_, ?_, ?_⟩
  · have h := ((flow_window_thresholds 9 1).1 (by norm_num)).1 (by norm_num)
    rw [h]; norm_num
  · have h := ((flow_window_thresholds 3 1).1 (by norm_num)).2.2.1 (by norm_num)
    simpa using h
  · exact ((flow_window_thresholds 0 0).2 ⟨rfl, rfl⟩).1
  · have h := ((flow_window_thresholds 71 29).1 (by norm_num)).2.2.2.1 (by norm_num)
    rw [h]; norm_num

/-! ## C1: whale detection in the trade handler -/

/-- C1: after any trade, the stored whale flag is set iff the trade's
notional `price·volume` exceeds 5000 and exceeds 2.5 times the (updated,
stored) EWMA notional, and the last whale side/volume/notional equal this
trade's values exactly when the flag is set and are cleared otherwise. -/
theorem whale_flag_correct (t : TradeState) (c : CandleState) (tk : Option TickerState)
    (ob : Option OrderbookState) (weights : ScoreWeights) (pair : String)
    (price volume : ℚ) (side : String) (ts : ℚ) :
    ∃ ewma : ℚ,
      (handle_trade t c tk ob weights pair price volume side ts).trade.ewma_notional
        = some ewma ∧
      ((handle_trade t c tk ob weights pair price volume side ts).trade.last_whale = true ↔
        price * volume > 5000 ∧ price * volume > 2.5 * ewma) ∧
      ((handle_trade t c tk ob weights pair price volume side ts).trade.last_whale = true →
        (handle_trade t c tk ob weights pair price volume side ts).trade.last_whale_side
            = some side ∧
        (handle_trade t c tk ob weights pair price volume side ts).trade.last_whale_volume
            = some volume ∧
        (handle_trade t c tk ob weights pair price volume side ts).trade.last_whale_notional
            = some (price * volume)) ∧
      ((handle_trade t c tk ob weights pair price volume side ts).trade.last_whale = false →
        (handle_trade t c tk ob weights pair price volume side ts).trade.last_whale_side
            = none ∧
        (handle_trade t c tk ob weights pair price volume side ts).trade.last_whale_volume
            = none ∧
        (handle_trade t c tk ob weights pair price volume side ts).trade.last_whale_notional
            = none) := by
  have hw : (handle_trade t c tk ob weights pair price volume side ts).trade.last_whale
      = (trade_calc t c tk ob weights price volume side ts).is_whale := rfl
  have hcalc : (trade_calc t c tk ob weights price volume side ts).is_whale
      = decide (price * volume > 5000 ∧ price * volume
          > (trade_calc t c tk ob weights price volume side ts).n1 * 2.5) := rfl
  have hside : (handle_trade t c tk ob weights pair price volume side ts).trade.last_whale_side
      = if (trade_calc t c tk ob weights price volume side ts).is_whale then some side
        else none := rfl
  have hvol : (handle_trade t c tk ob weights pair price volume side ts).trade.last_whale_volume
      = if (trade_calc t c tk ob weights price volume side ts).is_whale then some volume
        else none := rfl
  have hnot :
      (handle_trade t c tk ob weights pair price volume side ts).trade.last_whale_notional
      = if (trade_calc t c tk ob weights price volume side ts).is_whale
        then some (price * volume) else none := rfl
  refine ⟨(trade_calc t c tk ob weights price volume side ts).n1, rfl, ?_, ?_, ?_⟩
  · rw [hw, hcalc, decide_eq_true_eq]
    constructor
    · rintro ⟨h1, h2⟩; exact ⟨h1, by linarith⟩
    · rintro ⟨h1, h2⟩; exact ⟨h1, by linarith⟩
  · intro hwh
    have hmw : (trade_calc t c tk ob weights price volume side ts).is_whale = true := by
      rw [← hw]; exact hwh
    rw [hside, hvol, hnot, hmw]
    exact ⟨rfl, rfl, rfl⟩
  · intro hwh
    have hmw : (trade_calc t c tk ob weights price volume side ts).is_whale = false := by
      rw [← hw]; exact hwh
    rw [hside, hvol, hnot, hmw]
    exact ⟨rfl, rfl, rfl⟩

/-- Witness for C1: a buy of 100 units at price 100 against a prior EWMA
notional of 1000 gives notional 10000, updated EWMA 1900, and the whale
flag set with the trade's notional stored. -/
theorem whale_flag_correct_witness :
    (handle_trade { ewma_notional := some 1000 } {} none none ScoreWeights.default
        "X/EUR" 100 100 "b" 1).trade.last_whale = true ∧
    (handle_trade { ewma_notional := some 1000 } {} none none ScoreWeights.default
        "X/EUR" 100 100 "b" 1).trade.last_whale_notional = some 10000 := by
  obtain ⟨e, he, hiff, hpos, -⟩ := whale_flag_correct { ewma_notional := some 1000 } {}
    none none ScoreWeights.default "X/EUR" 100 100 "b" 1
  have h0 : (handle_trade { ewma_notional := some 1000 } {} none none ScoreWeights.default
      "X/EUR" 100 100 "b" 1).trade.ewma_notional
      = some (0.9 * ((some (1000 : ℚ)).getD (100 * 100)) + 0.1 * (100 * 100)) := rfl
  rw [h0] at he
  have he' : (0.9 * ((some (1000 : ℚ)).getD (100 * 100)) + 0.1 * (100 * 100)) = e :=
    Option.some.inj he
  have he2 : e = 1900 := by rw [← he']; norm_num
  subst he2
  have hwh : (handle_trade { ewma_notional := some 1000 } {} none none ScoreWeights.default
      "X/EUR" 100 100 "b" 1).trade.last_whale = true := hiff.mpr (by norm_num)
  obtain ⟨-, -, hn⟩ := hpos hwh
  exact ⟨hwh, by rw [hn]; norm_num⟩

/-! ## C3: candle invariant -/

/-- Candle states reachable from the fresh (all-`none`) state by any
sequence of trade-handler and ticker-handler candle updates. -/
inductive CandleReach : CandleState → Prop
  | base : CandleReach {}
  | trade (price : ℚ) (ts_int : Int) {c : CandleState} (h : CandleReach c) :
      CandleReach (candle_update_trade c price ts_int)
  | ticker (last openp : ℚ) (ts_int : Int) {c : CandleState} (h : CandleReach c) :
      CandleReach (candle_update_ticker c last openp ts_int)

/-- The close always lies between low and high once all three are set. -/
def candle_close_bounds (c : CandleState) : Prop :=
  ∀ l cl h : ℚ, c.low = some l → c.close = some cl → c.high = some h → l ≤ cl ∧ cl ≤ h

/-- The candle is initialized with its open inside `[low, high]`. -/
def candle_open_ok (c : CandleState) : Prop :=
  ∃ l o h : ℚ, c.low = some l ∧ c.open_ = some o ∧ c.high = some h ∧ l ≤ o ∧ o ≤ h

theorem candle_update_trade_close_bounds (c : CandleState) (price : ℚ) (ts_int : Int) :
    candle_close_bounds (candle_update_trade c price ts_int) := by
  unfold candle_update_trade
  cases hc : c.open_ <;> intro l cl h hl hcl hh <;> simp at hl hcl hh
  · exact ⟨hl ▸ hcl ▸ le_refl _, hcl ▸ hh ▸ le_refl _⟩
  · subst hl; subst hcl; subst hh
    exact ⟨min_le_right _ _, le_max_right _ _⟩

theorem candle_update_ticker_close_bounds (c : CandleState) (last openp : ℚ) (ts_int : Int) :
    candle_close_bounds (candle_update_ticker c last openp ts_int) := by
  unfold candle_update_ticker
  cases hc : c.open_ <;> intro l cl h hl hcl hh <;> simp at hl hcl hh
  · exact ⟨hl ▸ hcl ▸ le_refl _, hcl ▸ hh ▸ le_refl _⟩
  · subst hl; subst hcl; subst hh
    exact ⟨min_le_right _ _, le_max_right _ _⟩

/-- C3 counterexample: the first ticker update with last price 100 and 24h
open 200 initializes a reachable candle with `open = 200` above
`high = 100`, so `low ≤ open ≤ high` does not hold for all initialized
candles. -/
theorem candle_ticker_init_open_out_of_range :
    CandleReach (candle_update_ticker {} 100 200 0) ∧
    (candle_update_ticker {} 100 200 0).open_ = some 200 ∧
    (candle_update_ticker {} 100 200 0).high = some 100 ∧
    ¬ ((200 : ℚ) ≤ 100) :=
  ⟨CandleReach.ticker 100 200 0 CandleReach.base, rfl, rfl, by norm_num⟩

/-- C3 (amended): every reachable initialized candle satisfies
`low ≤ close ≤ high` at all times; `low ≤ open ≤ high` is established when
the candle is initialized by a trade update and preserved by every later
trade or ticker update, but ticker initialization sets `open` to the 24h
open, which may lie outside `[low, high]`. -/
theorem candle_bounds_amended :
    (∀ c, CandleReach c → candle_close_bounds c) ∧
    (∀ (c : CandleState) (price : ℚ) (ts_int : Int), c.open_ = none →
      candle_open_ok (candle_update_trade c price ts_int)) ∧
    (∀ (c : CandleState) (price : ℚ) (ts_int : Int), candle_open_ok c →
      candle_open_ok (candle_update_trade c price ts_int)) ∧
    (∀ (c : CandleState) (last openp : ℚ) (ts_int : Int), candle_open_ok c →
      candle_open_ok (candle_update_ticker c last openp ts_int)) := by
  refine ⟨?_, ?_, ?_, ?_⟩
  · intro c hreach
    induction hreach with
    | base => intro l cl h hl; simp at hl
    | trade price ts_int h ih => exact candle_update_trade_close_bounds _ _ _
    | ticker last openp ts_int h ih => exact candle_update_ticker_close_bounds _ _ _ _
  · intro c price ts_int hopen
    unfold candle_update_trade
    rw [hopen]
    exact ⟨price, price, price, rfl, rfl, rfl, le_refl _, le_refl _⟩
  · rintro c price ts_int ⟨l, o, h, hl, ho, hh, h1, h2⟩
    unfold candle_update_trade
    rw [ho]
    refine ⟨min (c.low.getD price) price, o, max (c.high.getD price) price,
      rfl, rfl, rfl, ?_, ?_⟩
    · exact le_trans (min_le_left _ _) (by rw [hl]; simpa using h1)
    · exact le_trans (by rw [hh]; simpa using h2) (le_max_left _ _)
  · rintro c last openp ts_int ⟨l, o, h, hl, ho, hh, h1, h2⟩
    unfold candle_update_ticker
    rw [ho]
    refine ⟨min (c.low.getD last) last, o, max (c.high.getD last) last,
      rfl, rfl, rfl, ?_, ?_⟩
    · exact le_trans (min_le_left _ _) (by rw [hl]; simpa using h1)
    · exact le_trans (by rw [hh]; simpa using h2) (le_max_left _ _)

/-- Witness for C3 (amended): a candle initialized by a trade at price 100
is reachable, satisfies the close bounds and has its open inside
`[low, high]`. -/
theorem candle_bounds_amended_witness :
    candle_close_bounds (candle_update_trade {} 100 0) ∧
    candle_open_ok (candle_update_trade {} 100 0) :=
  ⟨candle_bounds_amended.1 _ (CandleReach.trade 100 0 CandleReach.base),
   candle_bounds_amended.2.1 {} 100 0 rfl⟩

/-! ## C2: score-weight bounds under the self-evaluator -/

/-- All six weights lie in the clamp interval `[0.2, 5.0]`. -/
def weights_in_range (w : ScoreWeights) : Prop :=
  (0.2 ≤ w.flow_w ∧ w.flow_w ≤ 5) ∧ (0.2 ≤ w.price_w ∧ w.price_w ≤ 5) ∧
  (0.2 ≤ w.whale_w ∧ w.whale_w ≤ 5) ∧ (0.2 ≤ w.volume_w ∧ w.volume_w ≤ 5) ∧
  (0.2 ≤ w.anomaly_w ∧ w.anomaly_w ≤ 5) ∧ (0.2 ≤ w.trend_w ∧ w.trend_w ≤ 5)

theorem eval_adjust_range (ss sw fl : Bool) (w score : ℚ)
    (h1 : 0.2 ≤ w) (h2 : w ≤ 5) :
    0.2 ≤ eval_adjust ss sw fl w score ∧ eval_adjust ss sw fl w score ≤ 5 := by
  simp only [eval_adjust]
  constructor <;> split_ifs <;> linarith

theorem eval_event_range (candles : String → Option CandleState) (now_ts : Int)
    (weights : ScoreWeights) (ev : SignalEvent) (h : weights_in_range weights) :
    weights_in_range (eval_event candles now_ts weights ev).1 := by
  obtain ⟨h1, h2, h3, h4, h5, h6⟩ := h
  unfold eval_event
  split_ifs
  · exact ⟨h1, h2, h3, h4, h5, h6⟩
  · exact ⟨h1, h2, h3, h4, h5, h6⟩
  · exact ⟨h1, h2, h3, h4, h5, h6⟩
  · exact ⟨eval_adjust_range _ _ _ _ _ h1.1 h1.2, eval_adjust_range _ _ _ _ _ h2.1 h2.2,
      eval_adjust_range _ _ _ _ _ h3.1 h3.2, eval_adjust_range _ _ _ _ _ h4.1 h4.2,
      eval_adjust_range _ _ _ _ _ h5.1 h5.2, eval_adjust_range _ _ _ _ _ h6.1 h6.2⟩

theorem eval_signals_range (candles : String → Option CandleState) (now_ts : Int)
    (sigs : List SignalEvent) :
    ∀ weights, weights_in_range weights →
      weights_in_range (eval_signals candles now_ts weights sigs).1 := by
  induction sigs with
  | nil => intro w h; exact h
  | cons ev rest ih =>
    intro w h
    exact ih _ (eval_event_range candles now_ts w ev h)

/-- Weight states reachable from the default weights by any sequence of
self-evaluator cycles (each over an arbitrary signal list, candle store and
clock). -/
inductive WeightsReach : ScoreWeights → Prop
  | base : WeightsReach ScoreWeights.default
  | step (candles : String → Option CandleState) (now_ts : Int) (sigs : List SignalEvent)
      {w : ScoreWeights} (h : WeightsReach w) :
      WeightsReach (eval_signals candles now_ts w sigs).1

/-- C2: starting from the default weights, every weight state reachable by
self-evaluator update cycles keeps all six score weights inside
`[0.2, 5.0]`; moreover a single `adjust` application maps any in-range
weight back into `[0.2, 5.0]`. -/
theorem evaluator_weights_bounded :
    (∀ w, WeightsReach w → weights_in_range w) ∧
    (∀ (ss sw fl : Bool) (x score : ℚ), 0.2 ≤ x → x ≤ 5 →
      0.2 ≤ eval_adjust ss sw fl x score ∧ eval_adjust ss sw fl x score ≤ 5) := by
  constructor
  · intro w h
    induction h with
    | base => norm_num [weights_in_range, ScoreWeights.default]
    | step candles now_ts sigs h ih => exact eval_signals_range _ _ _ _ ih
  · exact fun ss sw fl x score hx1 hx2 => eval_adjust_range ss sw fl x score hx1 hx2

/-- Witness for C2: the default weights are reachable and in range, and a
strong-success adjustment of the default flow weight stays in range. -/
theorem evaluator_weights_bounded_witness :
    weights_in_range ScoreWeights.default ∧
    (0.2 ≤ eval_adjust true false false 2.2 1 ∧ eval_adjust true false false 2.2 1 ≤ 5) :=
  ⟨evaluator_weights_bounded.1 _ WeightsReach.base,
   evaluator_weights_bounded.2 true false false 2.2 1 (by norm_num) (by norm_num)⟩

/-! ## C4: self-evaluator behaviour on a missing companion price -/

theorem eval_adjust_no_change (w score : ℚ) (h1 : 0.2 ≤ w) (h2 : w ≤ 5) :
    eval_adjust false false false w score = w := by
  simp only [eval_adjust]
  split_ifs <;> first | rfl | linarith | simp_all

/-- C4 (amended): for an unevaluated event at least 300 s old with a
non-NONE rating whose pair has no candle close, the evaluator does not
skip the event: `unwrap_or` falls back to the event's own price, giving
realized return 0, which changes no in-range weight, and the event is
marked evaluated with `ret_5m = 0` and the elapsed horizon recorded. -/
theorem eval_event_missing_price (candles : String → Option CandleState)
    (now_ts : Int) (weights : ScoreWeights) (ev : SignalEvent)
    (hmiss : (candles ev.pair).bind (fun cn => cn.close) = none)
    (hev : ev.evaluated = false) (hage : 300 ≤ now_ts - ev.ts)
    (hrating : ¬ ev.rating = "NONE") (hprice : ev.price ≠ 0)
    (hw : weights_in_range weights) :
    eval_event candles now_ts weights ev =
      (weights, { ev with
          evaluated := true
          ret_5m := some 0
          eval_horizon_sec := some (now_ts - ev.ts) }) := by
  obtain ⟨h1, h2, h3, h4, h5, h6⟩ := hw
  unfold eval_event
  rw [if_neg (by simp [hev]), if_neg (by omega), if_neg hrating, hmiss]
  simp only [Option.getD_none, sub_self, zero_div, zero_mul]
  norm_num
  rw [eval_adjust_no_change _ _ h1.1 h1.2, eval_adjust_no_change _ _ h2.1 h2.2,
      eval_adjust_no_change _ _ h3.1 h3.2, eval_adjust_no_change _ _ h4.1 h4.2,
      eval_adjust_no_change _ _ h5.1 h5.2, eval_adjust_no_change _ _ h6.1 h6.2]

/-- Concrete unevaluated BUY-rated signal event used for C4. -/
def c4_event : SignalEvent :=
  { ts := 0, pair := "X/EUR", signal_type := "WHALE", direction := "BUY", strength := 0,
    flow_pct := 0, pct := 0, whale := true, whale_side := "b", volume := 1, notional := 10000,
    price := 100, rating := "BUY", total_score := 4, flow_score := 1, price_score := 0,
    whale_score := 1, volume_score := 0, anomaly_score := 0, trend_score := 0,
    evaluated := false, ret_5m := none, eval_horizon_sec := none }

/-- C4 counterexample: a 300-second-old unevaluated BUY-rated event whose
pair has no candle close is not left unevaluated — one evaluator cycle
over it flips `evaluated` to true and stores `ret_5m = 0`, contradicting
the claim that `evaluated` stays false and `ret_5m` stays unset. -/
theorem eval_missing_price_not_skipped :
    ((eval_signals (fun _ => none) 300 ScoreWeights.default [c4_event]).2.map
      (fun ev => (ev.evaluated, ev.ret_5m))) = [(true, some 0)] := by
  norm_num [eval_signals, eval_event, eval_adjust, c4_event, ScoreWeights.default]
  split_ifs with h₁
  · exact absurd h₁ (by decide)
  · exact ⟨rfl, rfl⟩

/-- Witness for C4 (amended): the amended behaviour at a concrete event —
default weights unchanged, event marked evaluated with `ret_5m = 0` and a
300 s horizon. -/
theorem eval_event_missing_price_witness :
    eval_event (fun _ => none) 300 ScoreWeights.default c4_event =
      (ScoreWeights.default, { c4_event with
          evaluated := true
          ret_5m := some 0
          eval_horizon_sec := some 300 }) := by
  have h := eval_event_missing_price (fun _ => none) 300 ScoreWeights.default c4_event
    rfl rfl (by norm_num [c4_event]) (by decide) (by norm_num [c4_event])
    (by norm_num [weights_in_range, ScoreWeights.default])
  simpa [c4_event] using h

/-! ## C7: edge-triggered WHALE signals -/

theorem trade_calc_pump_label_eq (t : TradeState) (c : CandleState)
    (tk : Option TickerState) (ob : Option OrderbookState) (weights : ScoreWeights)
    (price volume : ℚ) (side : String) (ts : ℚ) :
    (trade_calc t c tk ob weights price volume side ts).pump_label =
      (if (trade_calc t c tk ob weights price volume side ts).pump_score ≥ 7 ∧
          (trade_calc t c tk ob weights price volume side ts).pump_conf ≥ 0.9 ∧
          (trade_calc t c tk ob weights price volume side ts).dir = "BUY"
       then "MEGA_PUMP"
       else if (trade_calc t c tk ob weights price volume side ts).pump_score ≥ 4 ∧
          (trade_calc t c tk ob weights price volume side ts).pump_conf ≥ 0.5 ∧
          (trade_calc t c tk ob weights price volume side ts).dir = "BUY"
       then "EARLY_PUMP" else "NONE") := rfl

theorem trade_calc_pump_label_cases (t : TradeState) (c : CandleState)
    (tk : Option TickerState) (ob : Option OrderbookState) (weights : ScoreWeights)
    (price volume : ℚ) (side : String) (ts : ℚ) :
    (trade_calc t c tk ob weights price volume side ts).pump_label = "MEGA_PUMP" ∨
    (trade_calc t c tk ob weights price volume side ts).pump_label = "EARLY_PUMP" ∨
    (trade_calc t c tk ob weights price volume side ts).pump_label = "NONE" := by
  rw [trade_calc_pump_label_eq]
  split_ifs <;> simp

set_option maxHeartbeats 1000000 in
/-- C7: a `WHALE` event is pushed to the signal bus by a trade iff the
trade's whale flag is set and the previous trade's flag for the pair was
clear (rising edge); such an event carries the trade's side as direction.
Since the handler stores the new flag, a second consecutive whale trade or
a non-whale trade after a whale never emits a WHALE signal. -/
theorem whale_signal_edge_triggered (t : TradeState) (c : CandleState)
    (tk : Option TickerState) (ob : Option OrderbookState) (weights : ScoreWeights)
    (pair : String) (price volume : ℚ) (side : String) (ts : ℚ) :
    ((∃ ev ∈ (handle_trade t c tk ob weights pair price volume side ts).events,
        ev.signal_type = "WHALE") ↔
      ((handle_trade t c tk ob weights pair price volume side ts).trade.last_whale = true ∧
        t.last_whale = false)) ∧
    (∀ ev ∈ (handle_trade t c tk ob weights pair price volume side ts).events,
      ev.signal_type = "WHALE" →
        ev.direction = if side = "b" then "BUY" else "SELL") := by
  have hpl := trade_calc_pump_label_cases t c tk ob weights price volume side ts
  simp only [handle_trade, List.mem_append, mem_ite_singleton]
  constructor
  · constructor
    · rintro ⟨ev, (((h1 | h2) | h3) | h4) | h5, hty⟩
      · obtain ⟨-, rfl⟩ := h1
        exact absurd (show ("WH_PRED" : String) = "WHALE" from hty) (by decide)
      · obtain ⟨-, rfl⟩ := h2
        have hty' : (trade_calc t c tk ob weights price volume side ts).pump_label
            = "WHALE" := hty
        rcases hpl with hp | hp | hp <;> rw [hp] at hty' <;> exact absurd hty' (by decide)
      · obtain ⟨hc, rfl⟩ := h3; exact hc
      · obtain ⟨-, rfl⟩ := h4
        exact absurd (show ("EARLY" : String) = "WHALE" from hty) (by decide)
      · obtain ⟨-, rfl⟩ := h5
        exact absurd (show ("ALPHA" : String) = "WHALE" from hty) (by decide)
    · rintro ⟨hw, hprev⟩
      exact ⟨_, Or.inl (Or.inl (Or.inr ⟨⟨hw, hprev⟩, rfl⟩)), rfl⟩
  · rintro ev ((((h1 | h2) | h3) | h4) | h5) hty
    · obtain ⟨-, rfl⟩ := h1
      exact absurd (show ("WH_PRED" : String) = "WHALE" from hty) (by decide)
    · obtain ⟨-, rfl⟩ := h2
      have hty' : (trade_calc t c tk ob weights price volume side ts).pump_label
          = "WHALE" := hty
      rcases hpl with hp | hp | hp <;> rw [hp] at hty' <;> exact absurd hty' (by decide)
    · obtain ⟨hc, rfl⟩ := h3; rfl
    · obtain ⟨-, rfl⟩ := h4
      exact absurd (show ("EARLY" : String) = "WHALE" from hty) (by decide)
    · obtain ⟨-, rfl⟩ := h5
      exact absurd (show ("ALPHA" : String) = "WHALE" from hty) (by decide)

/-- Witness for C7: a concrete whale trade (notional 10000 against EWMA
1900) on a pair whose previous flag is clear pushes a WHALE event. -/
theorem whale_signal_edge_triggered_witness :
    ∃ ev ∈ (handle_trade { ewma_notional := some 1000 } {} none none ScoreWeights.default
        "X/EUR" 100 100 "b" 1).events, ev.signal_type = "WHALE" := by
  have hw : (handle_trade { ewma_notional := some 1000 } {} none none ScoreWeights.default
      "X/EUR" 100 100 "b" 1).trade.last_whale
      = decide ((100 * 100 : ℚ) > 5000 ∧ (100 * 100 : ℚ) >
          (0.9 * ((some (1000 : ℚ)).getD (100 * 100)) + 0.1 * (100 * 100)) * 2.5) := rfl
  have hw2 : (handle_trade { ewma_notional := some 1000 } {} none none ScoreWeights.default
      "X/EUR" 100 100 "b" 1).trade.last_whale = true := by
    rw [hw]
    simp only [decide_eq_true_eq]
    constructor <;> norm_num
  exact (whale_signal_edge_triggered { ewma_notional := some 1000 } {} none none
    ScoreWeights.default "X/EUR" 100 100 "b" 1).1.mpr ⟨hw2, rfl⟩

/-! ## C10: ANOM events never reach backtest aggregation -/

theorem handle_trade_events_not_anom (t : TradeState) (c : CandleState)
    (tk : Option TickerState) (ob : Option OrderbookState) (weights : ScoreWeights)
    (pair : String) (price volume : ℚ) (side : String) (ts : ℚ) :
    ∀ ev ∈ (handle_trade t c tk ob weights pair price volume side ts).events,
      ¬ ev.signal_type = "ANOM" ∧ ev.evaluated = false := by
  have hpl := trade_calc_pump_label_cases t c tk ob weights price volume side ts
  intro ev hmem
  simp only [handle_trade, List.mem_append, mem_ite_singleton] at hmem
  rcases hmem with (((⟨-, rfl⟩ | ⟨-, rfl⟩) | ⟨-, rfl⟩) | ⟨-, rfl⟩) | ⟨-, rfl⟩
  · exact ⟨fun h => absurd (show ("WH_PRED" : String) = "ANOM" from h) (by decide), rfl⟩
  · refine ⟨fun h => ?_, rfl⟩
    have h' : (trade_calc t c tk ob weights price volume side ts).pump_label = "ANOM" := h
    rcases hpl with hp | hp | hp <;> rw [hp] at h' <;> exact absurd h' (by decide)
  · exact ⟨fun h => absurd (show ("WHALE" : String) = "ANOM" from h) (by decide), rfl⟩
  · exact ⟨fun h => absurd (show ("EARLY" : String) = "ANOM" from h) (by decide), rfl⟩
  · exact ⟨fun h => absurd (show ("ALPHA" : String) = "ANOM" from h) (by decide), rfl⟩

theorem handle_ticker_events_anom (tk : TickerState) (t : TradeState) (c : CandleState)
    (pair : String) (last vol24h openp : ℚ) (ts_int : Int) :
    ∀ ev ∈ (handle_ticker tk t c pair last vol24h openp ts_int).events,
      ev.signal_type = "ANOM" ∧ ev.evaluated = true ∧ ev.ret_5m = none := by
  intro ev hmem
  simp only [handle_ticker, apply_ite TickerResult.events, mem_ite_singleton] at hmem
  obtain ⟨-, rfl⟩ := hmem
  exact ⟨rfl, rfl, rfl⟩

/-- An ANOM event, once in the ring, is evaluated with `ret_5m` unset. -/
def anom_prop (ev : SignalEvent) : Prop :=
  ev.signal_type = "ANOM" → ev.evaluated = true ∧ ev.ret_5m = none

theorem eval_event_evaluated_id (candles : String → Option CandleState) (now_ts : Int)
    (w : ScoreWeights) (ev : SignalEvent) (h : ev.evaluated = true) :
    eval_event candles now_ts w ev = (w, ev) := by
  unfold eval_event
  rw [if_pos h]

theorem eval_event_signal_type_eq (candles : String → Option CandleState) (now_ts : Int)
    (w : ScoreWeights) (ev : SignalEvent) :
    (eval_event candles now_ts w ev).2.signal_type = ev.signal_type := by
  unfold eval_event
  split_ifs <;> rfl

theorem eval_event_preserves_anom (candles : String → Option CandleState) (now_ts : Int)
    (w : ScoreWeights) (ev : SignalEvent) (h : anom_prop ev) :
    anom_prop (eval_event candles now_ts w ev).2 := by
  intro hty
  have hty' : ev.signal_type = "ANOM" := by
    rw [← eval_event_signal_type_eq candles now_ts w ev]; exact hty
  obtain ⟨he, hr⟩ := h hty'
  rw [eval_event_evaluated_id candles now_ts w ev he]
  exact ⟨he, hr⟩

theorem eval_signals_mem_preserve (P : SignalEvent → Prop)
    (hP : ∀ (candles : String → Option CandleState) (now_ts : Int) (w : ScoreWeights)
      (ev : SignalEvent), P ev → P (eval_event candles now_ts w ev).2)
    (candles : String → Option CandleState) (now_ts : Int) (sigs : List SignalEvent) :
    ∀ w, (∀ ev ∈ sigs, P ev) →
      ∀ ev' ∈ (eval_signals candles now_ts w sigs).2, P ev' := by
  induction sigs with
  | nil => intro w _ ev' h'; exact absurd h' (List.not_mem_nil ev')
  | cons e rest ih =>
    intro w h ev' h'
    have hsplit : (eval_signals candles now_ts w (e :: rest)).2
        = (eval_event candles now_ts w e).2 ::
          (eval_signals candles now_ts (eval_event candles now_ts w e).1 rest).2 := rfl
    rw [hsplit] at h'
    rcases List.mem_cons.mp h' with h' | h'
    · exact h' ▸ hP candles now_ts w e (h e (List.mem_cons_self e rest))
    · exact ih _ (fun x hx => h x (List.mem_cons_of_mem _ hx)) ev' h'

theorem push_signal_mem (buf : List SignalEvent) (ev a : SignalEvent)
    (h : a ∈ push_signal buf ev) : a ∈ buf ∨ a = ev := by
  obtain ⟨d, hd⟩ := push_signal_suffix buf ev
  have h2 : a ∈ d ++ push_signal buf ev := List.mem_append_right d h
  rw [hd] at h2
  simpa using h2

theorem foldl_push_preserves (P : SignalEvent → Prop) (evs : List SignalEvent) :
    ∀ buf, (∀ a ∈ buf, P a) → (∀ a ∈ evs, P a) →
      ∀ a ∈ evs.foldl push_signal buf, P a := by
  induction evs with
  | nil => intro buf hb _ a ha; exact hb a ha
  | cons e rest ih =>
    intro buf hb he a ha
    refine ih (push_signal buf e) ?_ (fun x hx => he x (List.mem_cons_of_mem _ hx)) a ha
    intro x hx
    rcases push_signal_mem buf e x hx with h | h
    · exact hb x h
    · exact h ▸ he e (List.mem_cons_self e rest)

/-- Signal buffers reachable from the empty ring via trade-handler pushes,
ticker-handler pushes and self-evaluator cycles. -/
inductive SigReach : List SignalEvent → Prop
  | base : SigReach []
  | trade (t : TradeState) (c : CandleState) (tk : Option TickerState)
      (ob : Option OrderbookState) (weights : ScoreWeights) (pair : String)
      (price volume : ℚ) (side : String) (ts : ℚ) {buf : List SignalEvent}
      (h : SigReach buf) :
      SigReach ((handle_trade t c tk ob weights pair price volume side ts).events.foldl
        push_signal buf)
  | ticker (tk : TickerState) (t : TradeState) (c : CandleState) (pair : String)
      (last vol24h openp : ℚ) (ts_int : Int) {buf : List SignalEvent} (h : SigReach buf) :
      SigReach ((handle_ticker tk t c pair last vol24h openp ts_int).events.foldl
        push_signal buf)
  | eval (candles : String → Option CandleState) (now_ts : Int) (w : ScoreWeights)
      {buf : List SignalEvent} (h : SigReach buf) :
      SigReach ((eval_signals candles now_ts w buf).2)

theorem sig_reach_anom (buf : List SignalEvent) (h : SigReach buf) :
    ∀ ev ∈ buf, anom_prop ev := by
  induction h with
  | base => intro ev h'; exact absurd h' (List.not_mem_nil ev)
  | trade t c tk ob weights pair price volume side ts h ih =>
    refine foldl_push_preserves _ _ _ ih ?_
    intro a ha hty
    exact absurd hty (handle_trade_events_not_anom t c tk ob weights pair
      price volume side ts a ha).1
  | ticker tk t c pair last vol24h openp ts_int h ih =>
    refine foldl_push_preserves _ _ _ ih ?_
    intro a ha
    obtain ⟨-, h2, h3⟩ := handle_ticker_events_anom tk t c pair last vol24h openp ts_int a ha
    exact fun _ => ⟨h2, h3⟩
  | eval candles now_ts w h ih =>
    exact eval_signals_mem_preserve anom_prop eval_event_preserves_anom candles now_ts _ _ ih

set_option maxHeartbeats 400000 in
/-- C10: the ticker handler creates ANOM events already evaluated with
`ret_5m` unset, the self-evaluator returns every already-evaluated event
(and the weights) unchanged, and on every reachable signal buffer the
backtest grouping — which keeps only evaluated events with `ret_5m` set —
contains no entry whose signal type is ANOM. -/
theorem backtest_rows_never_anom (buf : List SignalEvent) (h : SigReach buf) :
    (∀ (tk : TickerState) (t : TradeState) (c : CandleState) (pair : String)
        (last vol24h openp : ℚ) (ts_int : Int),
      ∀ ev ∈ (handle_ticker tk t c pair last vol24h openp ts_int).events,
        ev.signal_type = "ANOM" ∧ ev.evaluated = true ∧ ev.ret_5m = none) ∧
    (∀ (candles : String → Option CandleState) (now_ts : Int) (w : ScoreWeights)
        (ev : SignalEvent), ev.evaluated = true →
      eval_event candles now_ts w ev = (w, ev)) ∧
    (∀ e ∈ backtest_events buf, ¬ e.1.1 = "ANOM") := by
  refine ⟨handle_ticker_events_anom, eval_event_evaluated_id, ?_⟩
  intro e he
  unfold backtest_events at he
  rw [List.mem_filterMap] at he
  obtain ⟨ev, hmem, hmap⟩ := he
  have hint := sig_reach_anom buf h ev hmem
  split_ifs at hmap with hev
  · cases hr : ev.ret_5m with
    | none => rw [hr] at hmap; simp at hmap
    | some r =>
      rw [hr] at hmap
      simp only [Option.map_some'] at hmap
      have he2 : ((ev.signal_type, ev.direction), ev.ts, r) = e := Option.some.inj hmap
      subst he2
      intro hanom
      obtain ⟨-, hrnone⟩ := hint hanom
      rw [hr] at hrnone
      exact absurd hrnone (by simp)

/-- Concrete evaluated ANOM event as the ticker handler creates them. -/
def c10_anom_event : SignalEvent :=
  { ts := 0, pair := "X/EUR", signal_type := "ANOM", direction := "BUY", strength := 75,
    flow_pct := 0, pct := 10, whale := false, whale_side := "-", volume := 0, notional := 0,
    price := 110, rating := "NONE", total_score := 0, flow_score := 0, price_score := 0,
    whale_score := 0, volume_score := 0, anomaly_score := 0, trend_score := 0,
    evaluated := true, ret_5m := none, eval_horizon_sec := none }

/-- Witness for C10: on the empty (reachable) buffer the backtest grouping
has no ANOM rows, and the evaluator leaves a concrete evaluated ANOM event
untouched. -/
theorem backtest_rows_never_anom_witness :
    eval_event (fun _ => none) 1000 ScoreWeights.default c10_anom_event
        = (ScoreWeights.default, c10_anom_event) ∧
    (∀ e ∈ backtest_events [], ¬ e.1.1 = "ANOM") := by
  obtain ⟨-, hskip, hmain⟩ := backtest_rows_never_anom [] SigReach.base
  exact ⟨hskip _ _ _ _ rfl, hmain⟩


end WhaleRadar
